import Mathlib

/-!
Verification of the PySDL actor-model runtime (shallow embedding).

The definitions below are translated from the Python sources:
`pysdl/state.py`, `pysdl/signal.py`, `pysdl/timer.py`,
`pysdl/state_machine.py`, `pysdl/system.py`, `pysdl/process.py`.

Modelling conventions:
* Python `dict` is modelled as an association list (`List (key × value)`)
  with unique keys, preserving insertion order (CPython dicts are ordered).
* Python object identity for `SdlState` (the class defines no `__eq__`)
  is modelled by an `oid` field: each distinct Python object gets a
  distinct `oid`, so structural equality of the model coincides with
  Python `is` / default `==`.
* Machine integers are Lean `Int` (Python ints are unbounded).
* Python exceptions are modelled with `Except`: each `raise` site of the
  translated code becomes `.error`, each `try/except` becomes a `match`.
  The pure model of `asyncio.Queue.put` (list append) cannot fail, so
  defensive handlers around it are dead branches, kept where they mirror
  the control flow of the source.
* Lazily assigned global type ids (`SdlIdGenerator`) are modelled as
  parameters or fixed distinct constants: within one run each class has
  one fixed id.
-/

/-- Lookup in an association list by decidable equality, returning the
first value bound to the key (CPython `dict.__getitem__` / `get`). -/
def alookup {α β : Type} [DecidableEq α] : List (α × β) → α → Option β
  | [], _ => none
  | (k, v) :: rest, a => if k = a then some v else alookup rest a

/-- Replace the value bound to a key, or append the binding at the end if
the key is absent (CPython `dict.__setitem__`). -/
def setKey {α β : Type} [DecidableEq α] : List (α × β) → α → β → List (α × β)
  | [], a, b => [(a, b)]
  | (k, v) :: rest, a, b =>
      if k = a then (a, b) :: rest else (k, v) :: setKey rest a b

/-- Remove the binding of a key (CPython `dict.__delitem__`). -/
def eraseKey {α β : Type} [DecidableEq α] : List (α × β) → α → List (α × β)
  | [], _ => []
  | (k, v) :: rest, a => if k = a then rest else (k, v) :: eraseKey rest a

/-- Remove the first element equal (under `eq`) to `a`
(CPython `list.remove`). -/
def removeFirst {α : Type} (eq : α → α → Bool) : List α → α → List α
  | [], _ => []
  | x :: xs, a => if eq x a then xs else x :: removeFirst eq xs a

/-- Python truthiness of an optional string: `None` and the empty string
are falsy. -/
def truthy : Option String → Bool
  | none => false
  | some s => decide (s ≠ "")

/-- Model of `SdlState` (`pysdl/state.py`). The class defines no
`__eq__` or `__hash__`, so Python equality and dict hashing are object
identity; the `oid` field stands for the object identity. -/
structure SdlState where
  oid : Nat
  name : String
deriving DecidableEq

/-- The module-level wildcard state object `star = SdlState("*")`
(`pysdl/state.py` line 84). -/
def star : SdlState := ⟨0, "*"⟩

/-- The module-level initial state object `start = SdlState("start")`
(`pysdl/state.py` line 78). -/
def startState : SdlState := ⟨1, "start"⟩

/-- Payload of `SdlProcessNotExistSignal` (`pysdl/system_signals.py`
lines 165-180): the `_error_data` dict. -/
structure ErrorData where
  originalSignal : String
  destination : String
  source : String
deriving DecidableEq

/-- Model of `SdlSignal` (`pysdl/signal.py`). `typeId` is the class-level
id (`SdlSignal.id()`), `typeName` the class name `type(sig).__name__`,
`src`/`dst` the routing fields. `errorData` is the extra payload present
exactly on `SdlProcessNotExistSignal` instances. -/
structure SdlSignal where
  typeId : Nat
  typeName : String
  src : Option String := none
  dst : Option String := none
  errorData : Option ErrorData := none
deriving DecidableEq

/-- The lazily assigned class id of `SdlProcessNotExistSignal` in the
modelled run. -/
def processNotExistTypeId : Nat := 90

/-- The lazily assigned class id of `SdlStartSignal` in the modelled
run. -/
def startSignalTypeId : Nat := 91

/-- Model of `SdlTimer` (`pysdl/timer.py`): extends a signal with the
application correlator `_appcorr`, the deadline `_duration` and the
observed time `_expiry` (both initialised to 0 in `__init__`). -/
structure SdlTimer where
  typeId : Nat
  typeName : String
  src : Option String := none
  dst : Option String := none
  appcorr : Int := 0
  duration : Int := 0
  expiry : Int := 0
deriving DecidableEq

/-- A fresh timer as produced by `SdlTimer.__init__`
(`pysdl/timer.py` lines 48-53): correlator, duration and expiry all 0. -/
def SdlTimer.init (typeId : Nat) (typeName : String) : SdlTimer :=
  { typeId := typeId, typeName := typeName }

/-- Literal translation of `SdlTimer._compare` (`pysdl/timer.py` lines
130-150), including the branch at line 148-149 that returns `-1` when
`self.appcorr() > rhs.appcorr()`. -/
def SdlTimer.cmp (self rhs : SdlTimer) : Int :=
  if self.typeId < rhs.typeId then -1
  else if self.typeId > rhs.typeId then 1
  else if self.appcorr < rhs.appcorr then -1
  else if self.appcorr > rhs.appcorr then -1
  else 0

/-- `SdlTimer.__eq__`: `_compare(rhs) == 0`. -/
def SdlTimer.eqT (self rhs : SdlTimer) : Bool := self.cmp rhs = 0

/-- `SdlTimer.__lt__`: `_compare(rhs) < 0`. -/
def SdlTimer.ltT (self rhs : SdlTimer) : Bool := self.cmp rhs < 0

/-- `SdlTimer.__le__`: `_compare(rhs) <= 0`. -/
def SdlTimer.leT (self rhs : SdlTimer) : Bool := self.cmp rhs ≤ 0

/-- `SdlTimer.__gt__`: `_compare(rhs) > 0`. -/
def SdlTimer.gtT (self rhs : SdlTimer) : Bool := self.cmp rhs > 0

/-- `SdlTimer.__ge__`: `_compare(rhs) >= 0`. -/
def SdlTimer.geT (self rhs : SdlTimer) : Bool := self.cmp rhs ≥ 0

/-- `SdlTimer.start(msec)` (`pysdl/timer.py` lines 105-112): set the
duration and reset the expiry marker to 0. -/
def SdlTimer.start (t : SdlTimer) (msec : Int) : SdlTimer :=
  { t with duration := msec, expiry := 0 }

/-- `SdlTimer.expired()` (`pysdl/timer.py` lines 114-120):
`_expiry >= _duration`. -/
def SdlTimer.expired (t : SdlTimer) : Bool := t.expiry ≥ t.duration

/-- `SdlTimer.expire(msec)` (`pysdl/timer.py` lines 122-128): record the
current time as the observed time. -/
def SdlTimer.expire (t : SdlTimer) (msec : Int) : SdlTimer :=
  { t with expiry := msec }

/-- Model of `SdlStateMachine` (`pysdl/state_machine.py`): the
`_handlers` nested dict from state to (event id to handler). The handler
type is abstract. -/
structure SdlStateMachine (H : Type) where
  handlers : List (SdlState × List (Nat × H))

/-- One tier of `SdlStateMachine.find`: `state in self._handlers` and
then `event in states` (`pysdl/state_machine.py` lines 170-173). -/
def SdlStateMachine.tier {H : Type} (m : SdlStateMachine H)
    (state : SdlState) (event : Nat) : Option H :=
  match alookup m.handlers state with
  | none => none
  | some inner => alookup inner event

/-- Literal translation of `SdlStateMachine.find` (`pysdl/state_machine.py`
lines 142-194). `starId` is the value of `SdlStarSignal.id()` in the
modelled run. -/
def SdlStateMachine.find {H : Type} (m : SdlStateMachine H) (starId : Nat)
    (state : SdlState) (event : Nat) : Option H :=
  match m.tier state event with
  | some h => some h
  | none =>
    match m.tier star event with
    | some h => some h
    | none =>
      match m.tier state starId with
      | some h => some h
      | none => m.tier star starId

/-- The error kinds raised by the translated code (`pysdl/exceptions.py`):
validation errors, timer errors, delivery errors, queue errors. -/
inductive SdlError where
  | validation (field : String)
  | timerErr (msg : String)
  | delivery (destination : String)
  | queueErr (msg : String)
deriving DecidableEq

/-- An entry of the system's shared FIFO queue: either a plain signal or
a timer object (timers are enqueued as ordinary signals by `expire`). -/
inductive QueueItem where
  | sig (s : SdlSignal)
  | timer (t : SdlTimer)
deriving DecidableEq

/-- Model of `SdlSystem` state (`pysdl/system.py` lines 42-48):
the process registry `proc_map` (only the registered pids matter to the
routing code), the timer registry `timer_map`, the shared queue and the
diagnostic `ready_list`. -/
structure SdlSystem where
  procMap : List String
  timerMap : List (String × List SdlTimer)
  queue : List QueueItem
  readyList : List String
deriving DecidableEq

/-- Core of `SdlSystem.output` (`pysdl/system.py` lines 175-234),
shared by plain signals and timers. Arguments are the signal's `src`,
`dst`, its class name `type(signal).__name__` and its queue
representation. Dead defensive branches of the source (delivery to a
registered process cannot fail in the pure queue model) collapse to the
success path. -/
def SdlSystem.outputCore (sys : SdlSystem) (src dst : Option String)
    (typeName : String) (item : QueueItem) :
    Except SdlError (Bool × SdlSystem) :=
  match dst with
  | none => .error (SdlError.validation "signal.dst")
  | some d =>
    if d = "" then .error (SdlError.validation "signal.dst")
    else if d ∈ sys.procMap then
      -- destination registered: append to ready list, process.input
      -- enqueues the signal onto the shared queue, return True
      .ok (true, { sys with readyList := sys.readyList ++ [d],
                            queue := sys.queue ++ [item] })
    else
      -- destination missing: maybe notify the source, return False
      if truthy src ∧ (src.getD "") ∈ sys.procMap then
        let srcPid := src.getD ""
        let errorSignal : SdlSignal :=
          { typeId := processNotExistTypeId,
            typeName := "SdlProcessNotExistSignal",
            src := some "SdlSystem",
            dst := some srcPid,
            errorData := some { originalSignal := typeName,
                                destination := d, source := srcPid } }
        .ok (false, { sys with readyList := sys.readyList ++ [srcPid],
                               queue := sys.queue ++ [.sig errorSignal] })
      else
        .ok (false, sys)

/-- `SdlSystem.output` on a plain signal. -/
def SdlSystem.output (sys : SdlSystem) (s : SdlSignal) :
    Except SdlError (Bool × SdlSystem) :=
  sys.outputCore s.src s.dst s.typeName (.sig s)

/-- `SdlSystem.output` on a timer (as called from `SdlSystem.expire`). -/
def SdlSystem.outputTimer (sys : SdlSystem) (t : SdlTimer) :
    Except SdlError (Bool × SdlSystem) :=
  sys.outputCore t.src t.dst t.typeName (.timer t)

/-- `SdlSystem.register` (`pysdl/system.py` lines 63-88) restricted to
the pid: inserts the pid if absent and returns whether it was new. -/
def SdlSystem.register (sys : SdlSystem) (pid : String) :
    Bool × SdlSystem :=
  if pid ∈ sys.procMap then (false, sys)
  else (true, { sys with procMap := sys.procMap ++ [pid] })

/-- `SdlSystem.stopTimer` (`pysdl/system.py` lines 268-304): remove the
first timer equal (by `__eq__`, i.e. `(typeId, appcorr)`) to the
argument from its owner's list; delete the owner's entry once the list
is empty; return whether a removal occurred. -/
def SdlSystem.stopTimer (sys : SdlSystem) (t : SdlTimer) :
    Bool × SdlSystem :=
  match t.src with
  | none => (false, sys)
  | some pid =>
    if pid = "" then (false, sys)
    else
      match alookup sys.timerMap pid with
      | none => (false, sys)
      | some timerList =>
        if timerList.any (fun x => x.eqT t) then
          let rest := removeFirst SdlTimer.eqT timerList t
          if rest = [] then
            (true, { sys with timerMap := eraseKey sys.timerMap pid })
          else
            (true, { sys with timerMap := setKey sys.timerMap pid rest })
        else (false, sys)

/-- `SdlSystem.startTimer` (`pysdl/system.py` lines 236-266): raise a
timer error when the timer has no source pid; otherwise first stop any
equal running timer, then append the timer to its owner's list. -/
def SdlSystem.startTimer (sys : SdlSystem) (t : SdlTimer) :
    Except SdlError SdlSystem :=
  match t.src with
  | none => .error (SdlError.timerErr "Timer has no source PID")
  | some pid =>
    if pid = "" then .error (SdlError.timerErr "Timer has no source PID")
    else
      let sys1 := (sys.stopTimer t).2
      let old := (alookup sys1.timerMap pid).getD []
      .ok { sys1 with timerMap := setKey sys1.timerMap pid (old ++ [t]) }

/-- One timer of the first phase of `SdlSystem.expire`
(`pysdl/system.py` lines 426-443): record the observed time on the
timer; if it is now expired, attempt `output` (a failure is logged and
ignored) and collect it for removal. The accumulator carries the system
and the collected expired timers. -/
def expireStep (msec : Int) (acc : SdlSystem × List SdlTimer)
    (t : SdlTimer) : SdlSystem × List SdlTimer :=
  let t1 := t.expire msec
  if t1.expired then
    match acc.1.outputTimer t1 with
    | .ok (_, s1) => (s1, acc.2 ++ [t1])
    | .error _ => (acc.1, acc.2 ++ [t1])
  else acc

/-- First phase of `SdlSystem.expire`: sweep every owner's timer list in
registry order, stamping the observed time and delivering the expired
timers. The in-place mutation of each timer object by `timer.expire`
is reflected in the final timer registry (delivery never reads the
timer registry, so the order of those writes is immaterial). -/
def SdlSystem.expirePhase1 (sys : SdlSystem) (msec : Int) :
    SdlSystem × List SdlTimer :=
  let res := sys.timerMap.foldl
    (fun acc entry => entry.2.foldl (expireStep msec) acc) (sys, [])
  ({ res.1 with
      timerMap := res.1.timerMap.map
        (fun e => (e.1, e.2.map (fun t => t.expire msec))) },
    res.2)

/-- `SdlSystem.expire` (`pysdl/system.py` lines 411-451): the delivery
sweep followed by removal of every collected expired timer via
`stopTimer`, regardless of delivery outcome. Returns the new system and
the list of timers for which delivery was attempted, in order. -/
def SdlSystem.expire (sys : SdlSystem) (msec : Int) :
    SdlSystem × List SdlTimer :=
  let p1 := sys.expirePhase1 msec
  (p1.2.foldl (fun s t => (s.stopTimer t).2) p1.1, p1.2)

/-- Model of the `SdlProcess` instance state relevant to transitions
(`pysdl/process.py` lines 104-122): the pid, the current state and the
saved-signal buffer. -/
structure ProcessState where
  pid : String
  currentState : SdlState
  saveSignals : List SdlSignal
deriving DecidableEq

/-- The stamping performed by `SdlProcess.output` (`pysdl/process.py`
lines 212-213): `set_dst(dst)` then `set_src(self.pid())`. When called
from the flush loop the destination is the signal's own recorded
destination, so only `src` changes. -/
def stampSignal (pid : String) (sig : SdlSignal) : SdlSignal :=
  { sig with src := some pid }

/-- Accumulator of the saved-signal flush loop of
`SdlProcess.next_state` (`pysdl/process.py` lines 185-191): the system
threaded through `output`, the buffer contents after the in-place
stamping of signal objects, and the signals for which `output` reached
the system, in order. -/
structure FlushAcc where
  system : SdlSystem
  buffer : List SdlSignal
  attempts : List SdlSignal
deriving DecidableEq

/-- One iteration of the flush loop: `self.output(signal, signal.dst())`
with every exception caught and logged per signal. A falsy destination
makes `SdlProcess.output` raise a validation error before stamping; a
truthy destination stamps the signal and hands it to `SdlSystem.output`
(whose failure would also be caught here). -/
def flushStep (pid : String) (acc : FlushAcc) (sig : SdlSignal) :
    FlushAcc :=
  if truthy sig.dst then
    let sig1 := stampSignal pid sig
    match acc.system.output sig1 with
    | .ok (_, s1) =>
        { system := s1, buffer := acc.buffer ++ [sig1],
          attempts := acc.attempts ++ [sig1] }
    | .error _ =>
        { acc with buffer := acc.buffer ++ [sig1],
                   attempts := acc.attempts ++ [sig1] }
  else
    { acc with buffer := acc.buffer ++ [sig] }

/-- Result of `SdlProcess.next_state`: the updated system, the updated
process and whether the transition was logged. -/
structure NextStateResult where
  system : SdlSystem
  process : ProcessState
  logged : Bool
deriving DecidableEq

/-- Literal translation of `SdlProcess.next_state` (`pysdl/process.py`
lines 167-191): a no-op when the argument equals the current state
(Python object identity, the model's structural equality on
`SdlState`); otherwise log, assign the new state, then forward every
saved signal to its recorded destination, catching failures per signal.
The buffer is not cleared by the source. Also returns the list of
forwarded signals in order. -/
def SdlProcess.nextState (sys : SdlSystem) (p : ProcessState)
    (state : SdlState) : NextStateResult × List SdlSignal :=
  if state = p.currentState then
    ({ system := sys, process := p, logged := false }, [])
  else
    let acc := p.saveSignals.foldl (flushStep p.pid)
      { system := sys, buffer := [], attempts := [] }
    ({ system := acc.system,
       process := { p with currentState := state,
                           saveSignals := acc.buffer },
       logged := true },
     acc.attempts)

/-- `SdlProcess.save_signal` (`pysdl/process.py` lines 363-364): append
to the saved-signal buffer. -/
def SdlProcess.saveSignal (p : ProcessState) (sig : SdlSignal) :
    ProcessState :=
  { p with saveSignals := p.saveSignals ++ [sig] }

/-- The behaviour of one dispatched handler invocation: user code either
returns normally or raises an exception carrying a message. -/
def HandlerBehavior : Type := Except String Unit

/-- Model of a registered process as seen by the scheduler's dispatch:
its current state and its dispatch table, whose entries describe the
outcome of invoking the bound handler on the dispatched signal. -/
structure ProcModel where
  currentState : SdlState
  fsm : SdlStateMachine HandlerBehavior

/-- Outcome of `SdlSystem._process_signal`: the signal was dropped for a
missing process, dropped for a missing handler, handled to completion,
or the handler raised and the error was logged at the boundary. -/
inductive DispatchOutcome where
  | noProcess
  | noHandler
  | handled
  | handlerErrorLogged (msg : String)
deriving DecidableEq

/-- Literal translation of `SdlSystem._process_signal` (`pysdl/system.py`
lines 321-345). `lookup_proc_map` raises a validation error on a falsy
destination; a missing process or handler is logged and the signal
dropped; the handler invocation is wrapped in `try/except` so a raising
handler yields a logged outcome, never a propagated exception. -/
def SdlSystem.processSignal (procs : List (String × ProcModel))
    (starId : Nat) (signal : SdlSignal) :
    Except SdlError DispatchOutcome :=
  match signal.dst with
  | none => .error (SdlError.validation "dst")
  | some d =>
    if d = "" then .error (SdlError.validation "dst")
    else
      match alookup procs d with
      | none => .ok DispatchOutcome.noProcess
      | some p =>
        match p.fsm.find starId p.currentState signal.typeId with
        | none => .ok DispatchOutcome.noHandler
        | some behavior =>
          match behavior with
          | .ok _ => .ok DispatchOutcome.handled
          | .error e => .ok (DispatchOutcome.handlerErrorLogged e)

/-- Model of a constructed process instance as returned by the singleton
factory: its pid string and its instance index. -/
structure ProcInst where
  pid : String
  instanceIdx : Nat
deriving DecidableEq

/-- Class-level state of a concrete `SdlSingletonProcess` subclass:
the class name, the lazily assigned class id, the `_instance_count`
class counter and the `_singleton_instance` slot. -/
structure SingletonClassState where
  className : String
  classId : Nat
  instanceCount : Nat
  singletonInstance : Option ProcInst
deriving DecidableEq

/-- The pid format of `SdlProcess.__init__` (`pysdl/process.py` line
118): `Name(classId.instance)`. -/
def mkPid (name : String) (classId instanceIdx : Nat) : String :=
  name ++ "(" ++ Nat.repr classId ++ "." ++ Nat.repr instanceIdx ++ ")"

/-- The self-addressed `SdlStartSignal` sent by `SdlProcess._register`
(`pysdl/process.py` line 295), after stamping by `SdlProcess.output`. -/
def startSignalFor (pid : String) : SdlSignal :=
  { typeId := startSignalTypeId, typeName := "SdlStartSignal",
    src := some pid, dst := some pid }

/-- Literal translation of `SdlSingletonProcess.create`
(`pysdl/process.py` lines 383-410) together with the construction and
registration it triggers. When the singleton slot is filled the existing
instance is returned at once — the `system is None` validation check
sits inside the empty-slot branch. On first creation the singleton
branch of `SdlProcess.__init__` skips `incr_instance`, so the instance
index is the untouched class counter; `_register` then registers the
pid and sends the self-addressed start signal through `output`. -/
def SdlSingletonProcess.create (cls : SingletonClassState)
    (system : Option SdlSystem) :
    Except SdlError (SingletonClassState × ProcInst × Option SdlSystem) :=
  match cls.singletonInstance with
  | some inst => .ok (cls, inst, system)
  | none =>
    match system with
    | none => .error (SdlError.validation "system")
    | some sys =>
      let inst : ProcInst :=
        { pid := mkPid cls.className cls.classId cls.instanceCount,
          instanceIdx := cls.instanceCount }
      let sys1 := (sys.register inst.pid).2
      let sys2 :=
        match sys1.output (startSignalFor inst.pid) with
        | .ok (_, s) => s
        | .error _ => sys1
      .ok ({ cls with singletonInstance := some inst }, inst, some sys2)

/-- The effect of one `stopTimer` call on the owner's registry entry,
viewed through `alookup`: `none` stands for an absent entry. Used to
specify `SdlSystem.stopTimer` and the removal phase of
`SdlSystem.expire`. -/
def applyStop (o : Option (List SdlTimer)) (t : SdlTimer) :
    Option (List SdlTimer) :=
  match o with
  | none => none
  | some ts =>
    if ts.any (fun x => x.eqT t) then
      let rest := removeFirst SdlTimer.eqT ts t
      if rest = [] then none else some rest
    else some ts

/-- Cons an element onto the list held by an optional registry entry,
treating an absent entry as the empty list. Proof device for the
removal-phase analysis. -/
def consOpt (x : SdlTimer) (o : Option (List SdlTimer)) :
    Option (List SdlTimer) :=
  some (x :: o.getD [])

/-- The number of timers in a list equal (by `__eq__`) to `t`. -/
def countTimerEq (ts : List SdlTimer) (t : SdlTimer) : Nat :=
  (ts.filter (fun x => x.eqT t)).length

/-- Example dispatch table with handlers (numeric labels) bound at all
four priority tiers for state `⟨2, "s1"⟩` and event id 5, with star
event id 7. -/
def machineEx : SdlStateMachine Nat :=
  ⟨[(⟨2, "s1"⟩, [(5, 1), (7, 3)]), (star, [(5, 2), (7, 4)])]⟩

/-- Example system with two registered processes and empty registries. -/
def sysAB : SdlSystem :=
  { procMap := ["A(1.0)", "B(2.0)"], timerMap := [], queue := [],
    readyList := [] }

/-- Example signal from a registered source to an unregistered pid. -/
def ghostSignal : SdlSignal :=
  { typeId := 50, typeName := "Ping", src := some "A(1.0)",
    dst := some "Ghost(9.9)" }

/-- Example saved signal addressed to the registered process B. -/
def savedSig : SdlSignal :=
  { typeId := 50, typeName := "Ping", dst := some "B(2.0)" }

/-- Example process owning one saved signal. -/
def procWithSaved : ProcessState :=
  { pid := "A(1.0)", currentState := startState, saveSignals := [savedSig] }

/-- Example target states for transitions. -/
def stateS2 : SdlState := ⟨5, "s2"⟩

/-- A second example target state. -/
def stateS3 : SdlState := ⟨6, "s3"⟩

/-- Two distinct state objects carrying the same name. -/
def stateIdleA : SdlState := ⟨7, "idle"⟩

/-- The second state object named "idle". -/
def stateIdleB : SdlState := ⟨8, "idle"⟩

/-- Example process sitting in the first "idle" state object with an
empty saved-signal buffer. -/
def procIdle : ProcessState :=
  { pid := "A(1.0)", currentState := stateIdleA, saveSignals := [] }

/-- Example system with nothing registered. -/
def sysEmpty : SdlSystem := { procMap := [], timerMap := [], queue := [],
                              readyList := [] }

/-- Two timers of the same concrete type (same class id) whose
correlators differ: 20 versus 10. -/
def timerCorr20 : SdlTimer := { typeId := 5, typeName := "T", appcorr := 20 }

/-- The partner timer with correlator 10. -/
def timerCorr10 : SdlTimer := { typeId := 5, typeName := "T", appcorr := 10 }

/-- Example timer owned by the registered process A. -/
def timerOwnedA : SdlTimer :=
  { typeId := 60, typeName := "Tick", src := some "A(1.0)",
    dst := some "A(1.0)", appcorr := 1, duration := 100 }

/-- A second timer instance equal to `timerOwnedA` by
`(typeId, correlator)`. -/
def timerOwnedA2 : SdlTimer :=
  { typeId := 60, typeName := "Tick", src := some "A(1.0)",
    dst := some "A(1.0)", appcorr := 1, duration := 250 }

/-- Example timer with a later deadline and distinct correlator. -/
def timerLate : SdlTimer :=
  { typeId := 60, typeName := "Tick", src := some "A(1.0)",
    dst := some "A(1.0)", appcorr := 2, duration := 900 }

/-- Example system with one owner holding an expiring and a
non-expiring timer. -/
def sysTimers : SdlSystem :=
  { procMap := ["A(1.0)"],
    timerMap := [("A(1.0)", [timerOwnedA, timerLate])],
    queue := [], readyList := [] }

/-- Example dispatch model: process A sits in `⟨2, "s1"⟩` and its only
handler for event 5 raises. -/
def procsWithRaisingHandler : List (String × ProcModel) :=
  [("A(1.0)", { currentState := ⟨2, "s1"⟩,
                fsm := ⟨[(⟨2, "s1"⟩, [(5, Except.error "boom")])]⟩ })]

/-- Example signal dispatched to process A with event id 5. -/
def sigToA : SdlSignal :=
  { typeId := 5, typeName := "Job", src := some "B(2.0)",
    dst := some "A(1.0)" }

/-- Example already-created singleton instance. -/
def soloInst : ProcInst := { pid := "Solo(3.0)", instanceIdx := 0 }

/-- Example singleton class state whose instance slot is filled. -/
def clsWithInstance : SingletonClassState :=
  { className := "Solo", classId := 3, instanceCount := 0,
    singletonInstance := some soloInst }

/-- Example singleton class state before any creation. -/
def clsFresh : SingletonClassState :=
  { className := "Solo", classId := 3, instanceCount := 0,
    singletonInstance := none }

/-- C10: a newly constructed timer (never started) reports
`expired() == True`, since both `_duration` and `_expiry` initialise to
0 and `expired()` is `_expiry >= _duration`; starting it makes it
non-expired exactly for a positive duration, and observing any
nonnegative current time keeps a fresh timer expired. -/
theorem freshTimer_expired (tid : Nat) (tname : String) (msec now : Int) :
    (SdlTimer.init tid tname).expired = true ∧
    (((SdlTimer.init tid tname).start msec).expired = false ↔ 0 < msec) ∧
    (0 ≤ now → ((SdlTimer.init tid tname).expire now).expired = true) := by
  refine ⟨rfl, ?_, ?_⟩
  · simp only [SdlTimer.init, SdlTimer.start, SdlTimer.expired,
      decide_eq_false_iff_not, not_le]
  · intro h
    simp only [SdlTimer.init, SdlTimer.expire, SdlTimer.expired,
      decide_eq_true_eq]
    exact h

/-- Witness for `freshTimer_expired` at timer id 3, duration 100 and
observed time 50. -/
theorem freshTimer_expired_witness :
    (0 ≤ (50 : Int)) ∧
      ((SdlTimer.init 3 "T").expire 50).expired = true :=
  ⟨by decide, (freshTimer_expired 3 "T" 100 50).2.2 (by decide)⟩

/-- C7: the claim demands that for equal type ids `t1 > t2` hold exactly
when `t1`'s correlator is greater, and that `t1 < t2` and `t2 < t1`
never both hold. The translated `_compare` returns `-1` in both
correlator branches (`pysdl/timer.py` line 149), so with correlators 20
versus 10 the greater-than test fails and both less-than tests succeed,
contradicting the claim (and the docstring of `_compare` itself). -/
theorem timer_compare_inconsistent :
    timerCorr20.appcorr > timerCorr10.appcorr ∧
    timerCorr20.typeId = timerCorr10.typeId ∧
    timerCorr20.gtT timerCorr10 = false ∧
    timerCorr20.ltT timerCorr10 = true ∧
    timerCorr10.ltT timerCorr20 = true ∧
    timerCorr20.eqT timerCorr10 = false := by decide

/-- C1: `find` resolves through the four priority tiers in strict
order — exact `(S, E)`, then `(star, E)`, then `(S, starId)`, then
`(star, starId)` — returning the binding of the highest populated tier
and `none` exactly when all four tiers are empty. -/
theorem find_priority_cascade {H : Type} (m : SdlStateMachine H)
    (starId : Nat) (S : SdlState) (E : Nat) :
    (∀ h, m.tier S E = some h → m.find starId S E = some h) ∧
    (m.tier S E = none → ∀ h, m.tier star E = some h →
      m.find starId S E = some h) ∧
    (m.tier S E = none → m.tier star E = none → ∀ h,
      m.tier S starId = some h → m.find starId S E = some h) ∧
    (m.tier S E = none → m.tier star E = none →
      m.tier S starId = none → m.find starId S E = m.tier star starId) ∧
    (m.find starId S E = none ↔
      m.tier S E = none ∧ m.tier star E = none ∧
      m.tier S starId = none ∧ m.tier star starId = none) := by
  cases h1 : m.tier S E <;> cases h2 : m.tier star E <;>
    cases h3 : m.tier S starId <;> cases h4 : m.tier star starId <;>
      simp [SdlStateMachine.find, h1, h2, h3, h4]

/-- Witness for `find_priority_cascade` on `machineEx`: the exact tier
wins for `(⟨2, "s1"⟩, 5)` and the star-state tier serves an unknown
state. -/
theorem find_priority_cascade_witness :
    machineEx.find 7 ⟨2, "s1"⟩ 5 = some 1 ∧
    machineEx.find 7 ⟨3, "s2"⟩ 5 = some 2 :=
  ⟨(find_priority_cascade machineEx 7 ⟨2, "s1"⟩ 5).1 1 (by decide),
   (find_priority_cascade machineEx 7 ⟨3, "s2"⟩ 5).2.1 (by decide) 2
     (by decide)⟩

/-- C6: `_process_signal` never lets an exception escape the dispatch
boundary for a routable signal: a raising handler yields a logged
outcome, a normally returning handler completes, a missing handler or a
missing destination process is logged and the signal dropped — in every
case the result is a normal return. -/
theorem processSignal_isolates_errors
    (procs : List (String × ProcModel)) (starId : Nat)
    (signal : SdlSignal) (d : String)
    (hd : signal.dst = some d) (hne : d ≠ "") :
    (∀ p, alookup procs d = some p →
      (∀ e, p.fsm.find starId p.currentState signal.typeId =
          some (Except.error e) →
        SdlSystem.processSignal procs starId signal =
          Except.ok (DispatchOutcome.handlerErrorLogged e)) ∧
      (p.fsm.find starId p.currentState signal.typeId =
          some (Except.ok ()) →
        SdlSystem.processSignal procs starId signal =
          Except.ok DispatchOutcome.handled) ∧
      (p.fsm.find starId p.currentState signal.typeId = none →
        SdlSystem.processSignal procs starId signal =
          Except.ok DispatchOutcome.noHandler)) ∧
    (alookup procs d = none →
      SdlSystem.processSignal procs starId signal =
        Except.ok DispatchOutcome.noProcess) := by
  constructor
  · intro p hp
    refine ⟨fun e he => ?_, fun hok => ?_, fun hn => ?_⟩
    · simp [SdlSystem.processSignal, hd, hne, hp, he]
    · simp [SdlSystem.processSignal, hd, hne, hp, hok]
    · simp [SdlSystem.processSignal, hd, hne, hp, hn]
  · intro hp
    simp [SdlSystem.processSignal, hd, hne, hp]

/-- Witness for `processSignal_isolates_errors`: the raising handler of
`procsWithRaisingHandler` is caught and logged. -/
theorem processSignal_isolates_errors_witness :
    SdlSystem.processSignal procsWithRaisingHandler 7 sigToA =
      Except.ok (DispatchOutcome.handlerErrorLogged "boom") :=
  ((processSignal_isolates_errors procsWithRaisingHandler 7 sigToA
      "A(1.0)" rfl (by decide)).1
    { currentState := ⟨2, "s1"⟩,
      fsm := ⟨[(⟨2, "s1"⟩, [(5, Except.error "boom")])]⟩ }
    rfl).1 "boom" rfl

/-- C2: sending a signal whose destination pid is unregistered returns
`False` and never raises; when the source pid is present and registered
exactly one `ProcessNotExist` signal is enqueued, addressed to the
source, with payload `(original type name, missing destination, source
pid)`; otherwise nothing is enqueued. The registries are untouched in
either case. -/
theorem output_missing_destination (sys : SdlSystem) (s : SdlSignal)
    (d : String) (hd : s.dst = some d) (hne : d ≠ "")
    (hmiss : d ∉ sys.procMap) :
    ∃ sys2 : SdlSystem,
      sys.output s = Except.ok (false, sys2) ∧
      sys2.procMap = sys.procMap ∧
      sys2.timerMap = sys.timerMap ∧
      (∀ srcPid, s.src = some srcPid → srcPid ≠ "" →
        srcPid ∈ sys.procMap →
          sys2.queue = sys.queue ++
            [QueueItem.sig
              { typeId := processNotExistTypeId,
                typeName := "SdlProcessNotExistSignal",
                src := some "SdlSystem", dst := some srcPid,
                errorData := some { originalSignal := s.typeName,
                                    destination := d,
                                    source := srcPid } }] ∧
          sys2.readyList = sys.readyList ++ [srcPid]) ∧
      (¬ (truthy s.src = true ∧ s.src.getD "" ∈ sys.procMap) →
        sys2 = sys) := by
  unfold SdlSystem.output SdlSystem.outputCore
  rw [hd]
  simp only [hne, if_false, ite_false, if_neg, hmiss]
  by_cases hc : truthy s.src = true ∧ s.src.getD "" ∈ sys.procMap
  · rw [if_pos hc]
    refine ⟨_, rfl, rfl, rfl, ?_, fun hnc => absurd hc hnc⟩
    intro srcPid hsrc hsne hsmem
    rw [hsrc]
    exact ⟨rfl, rfl⟩
  · rw [if_neg hc]
    refine ⟨sys, rfl, rfl, rfl, ?_, fun _ => rfl⟩
    intro srcPid hsrc hsne hsmem
    exfalso
    exact hc ⟨by simp [truthy, hsrc, hsne], by simp [hsrc, hsmem]⟩

/-- Witness for `output_missing_destination`: from `sysAB`, a signal to
the unregistered pid `Ghost(9.9)` with registered source `A(1.0)`
returns false and enqueues the notification back to the source. -/
theorem output_missing_destination_witness :
    ∃ sys2 : SdlSystem,
      sysAB.output ghostSignal = Except.ok (false, sys2) ∧
      sys2.queue = [QueueItem.sig
        { typeId := processNotExistTypeId,
          typeName := "SdlProcessNotExistSignal",
          src := some "SdlSystem", dst := some "A(1.0)",
          errorData := some { originalSignal := "Ping",
                              destination := "Ghost(9.9)",
                              source := "A(1.0)" } }] := by
  obtain ⟨sys2, hout, _, _, hq, _⟩ :=
    output_missing_destination sysAB ghostSignal "Ghost(9.9)" rfl
      (by decide) (by decide)
  obtain ⟨hqueue, _⟩ := hq "A(1.0)" rfl (by decide) (by decide)
  exact ⟨sys2, hout, by rw [hqueue]; rfl⟩

theorem flushStep_fields (pid : String) (acc : FlushAcc) (sig : SdlSignal) :
    ((flushStep pid acc sig).buffer =
      acc.buffer ++ [if truthy sig.dst then stampSignal pid sig else sig]) ∧
    ((flushStep pid acc sig).attempts =
      acc.attempts ++
        if truthy sig.dst then [stampSignal pid sig] else []) := by
  unfold flushStep
  by_cases h : truthy sig.dst = true
  · cases ho : acc.system.output (stampSignal pid sig) with
    | ok v => obtain ⟨b, s1⟩ := v; simp [h, ho]
    | error e => simp [h, ho]
  · simp [h]

theorem flush_foldl (pid : String) (sigs : List SdlSignal) :
    ∀ acc : FlushAcc,
      ((sigs.foldl (flushStep pid) acc).buffer =
        acc.buffer ++ sigs.map
          (fun sig => if truthy sig.dst then stampSignal pid sig else sig)) ∧
      ((sigs.foldl (flushStep pid) acc).attempts =
        acc.attempts ++
          (sigs.filter (fun sig => truthy sig.dst)).map
            (stampSignal pid)) := by
  induction sigs with
  | nil => intro acc; simp
  | cons x xs ih =>
    intro acc
    obtain ⟨hb, ha⟩ := ih (flushStep pid acc x)
    obtain ⟨hb0, ha0⟩ := flushStep_fields pid acc x
    constructor
    · rw [List.foldl_cons, hb, hb0, List.map_cons]
      by_cases h : truthy x.dst = true <;> simp [h]
    · rw [List.foldl_cons, ha, ha0, List.filter_cons]
      by_cases h : truthy x.dst = true <;> simp [h]

/-- C8 (amended): state identity in the code is Python object identity,
not the state's name — `SdlState` defines no `__eq__`. Calling
`next_state` with the current state object itself performs no logging,
no flush and no mutation; a distinct state object with an equal name is
a different state and triggers a full transition (see the
counterexample). -/
theorem nextState_same_object_noop (sys : SdlSystem) (p : ProcessState)
    (state : SdlState) (h : state = p.currentState) :
    SdlProcess.nextState sys p state =
      ({ system := sys, process := p, logged := false }, []) := by
  unfold SdlProcess.nextState
  rw [if_pos h]

/-- Witness for `nextState_same_object_noop` on `procIdle` and its own
current state object. -/
theorem nextState_same_object_noop_witness :
    SdlProcess.nextState sysEmpty procIdle stateIdleA =
      ({ system := sysEmpty, process := procIdle, logged := false }, []) :=
  nextState_same_object_noop sysEmpty procIdle stateIdleA rfl

/-- C8 counterexample: a state instance named the same as the current
state but distinct from it does not compare equal (no `__eq__` on
`SdlState`), so `next_state` logs and mutates — refuting the claim that
any same-named instance is a no-op. -/
theorem nextState_same_name_transitions :
    stateIdleA.name = stateIdleB.name ∧ stateIdleA ≠ stateIdleB ∧
    (SdlProcess.nextState sysEmpty procIdle stateIdleB).1.logged = true ∧
    (SdlProcess.nextState sysEmpty procIdle
        stateIdleB).1.process.currentState ≠ procIdle.currentState := by
  decide

/-- C3 (amended): a transition to a state different from the current one
logs, assigns the new state, and forwards every saved signal to its
previously recorded destination via `output` in original insertion
order, per-signal failures being caught without stopping the flush or
failing the transition; however the buffer is NOT cleared — the signals
remain saved (restamped with the sender pid) and a later transition
forwards them again. -/
theorem nextState_flush_order (sys : SdlSystem) (p : ProcessState)
    (state : SdlState) (h : state ≠ p.currentState) :
    ((SdlProcess.nextState sys p state).1.logged = true) ∧
    ((SdlProcess.nextState sys p state).1.process.currentState = state) ∧
    ((SdlProcess.nextState sys p state).1.process.pid = p.pid) ∧
    ((SdlProcess.nextState sys p state).2 =
      (p.saveSignals.filter (fun sig => truthy sig.dst)).map
        (stampSignal p.pid)) ∧
    ((SdlProcess.nextState sys p state).1.process.saveSignals =
      p.saveSignals.map
        (fun sig =>
          if truthy sig.dst then stampSignal p.pid sig else sig)) ∧
    ((SdlProcess.nextState sys p state).1.process.saveSignals.length =
      p.saveSignals.length) := by
  unfold SdlProcess.nextState
  rw [if_neg h]
  obtain ⟨hb, ha⟩ := flush_foldl p.pid p.saveSignals ⟨sys, [], []⟩
  exact ⟨rfl, rfl, rfl, by simpa using ha, by simpa using hb,
    by simp [hb]⟩

/-- Witness for `nextState_flush_order`: transitioning `procWithSaved`
away from its current state forwards the single saved signal, stamped
with the sender pid. -/
theorem nextState_flush_order_witness :
    (SdlProcess.nextState sysAB procWithSaved stateS2).2 =
      [stampSignal "A(1.0)" savedSig] := by
  have h := nextState_flush_order sysAB procWithSaved stateS2 (by decide)
  rw [h.2.2.2.1]
  rfl

/-- C3 counterexample: after a transition the saved-signal buffer is
still populated, and a second transition forwards the saved signal
again — refuting the claim that the buffer has been flushed and that a
later transition does not re-send. -/
theorem nextState_buffer_not_cleared :
    (SdlProcess.nextState sysAB procWithSaved
        stateS2).1.process.saveSignals ≠ [] ∧
    (SdlProcess.nextState
        (SdlProcess.nextState sysAB procWithSaved stateS2).1.system
        (SdlProcess.nextState sysAB procWithSaved stateS2).1.process
        stateS3).2 ≠ [] := by
  decide

theorem outputCore_preserves (sys : SdlSystem) (src dst : Option String)
    (tn : String) (item : QueueItem) (b : Bool) (sys2 : SdlSystem)
    (h : sys.outputCore src dst tn item = Except.ok (b, sys2)) :
    sys2.procMap = sys.procMap ∧ sys2.timerMap = sys.timerMap := by
  unfold SdlSystem.outputCore at h
  cases dst with
  | none => simp at h
  | some d =>
    dsimp only at h
    by_cases h1 : d = ""
    · rw [if_pos h1] at h
      simp at h
    · rw [if_neg h1] at h
      by_cases h2 : d ∈ sys.procMap
      · rw [if_pos h2] at h
        simp only [Except.ok.injEq, Prod.mk.injEq] at h
        obtain ⟨hb, hs⟩ := h
        subst hs
        exact ⟨rfl, rfl⟩
      · rw [if_neg h2] at h
        by_cases h3 : truthy src = true ∧ src.getD "" ∈ sys.procMap
        · rw [if_pos h3] at h
          simp only [Except.ok.injEq, Prod.mk.injEq] at h
          obtain ⟨hb, hs⟩ := h
          subst hs
          exact ⟨rfl, rfl⟩
        · rw [if_neg h3] at h
          simp only [Except.ok.injEq, Prod.mk.injEq] at h
          obtain ⟨hb, hs⟩ := h
          subst hs
          exact ⟨rfl, rfl⟩

theorem register_mem (sys : SdlSystem) (pid : String) :
    pid ∈ (sys.register pid).2.procMap := by
  unfold SdlSystem.register
  by_cases h : pid ∈ sys.procMap
  · rw [if_pos h]
    exact h
  · rw [if_neg h]
    simp

/-- C9 (amended): the singleton factory constructs at most one
instance — the first call (empty slot) requires a system, raising a
validation error without one; it constructs the instance with index
equal to the untouched class counter, registers its pid and fills the
slot without advancing the counter. Every later call returns the
existing instance and the unchanged class state — even when the system
argument is absent, since the `system is None` check sits inside the
empty-slot branch. -/
theorem singleton_create_spec (cls : SingletonClassState)
    (sys : SdlSystem) :
    (∀ inst, cls.singletonInstance = some inst →
      ∀ sysOpt, SdlSingletonProcess.create cls sysOpt =
        Except.ok (cls, inst, sysOpt)) ∧
    (cls.singletonInstance = none →
      SdlSingletonProcess.create cls none =
        Except.error (SdlError.validation "system")) ∧
    (cls.singletonInstance = none →
      ∃ cls1 inst sys1,
        SdlSingletonProcess.create cls (some sys) =
          Except.ok (cls1, inst, some sys1) ∧
        cls1.instanceCount = cls.instanceCount ∧
        inst.instanceIdx = cls.instanceCount ∧
        cls1.singletonInstance = some inst ∧
        inst.pid = mkPid cls.className cls.classId cls.instanceCount ∧
        inst.pid ∈ sys1.procMap ∧
        SdlSingletonProcess.create cls1 (some sys1) =
          Except.ok (cls1, inst, some sys1)) := by
  refine ⟨?_, ?_, ?_⟩
  · intro inst h sysOpt
    simp [SdlSingletonProcess.create, h]
  · intro h
    simp [SdlSingletonProcess.create, h]
  · intro h
    unfold SdlSingletonProcess.create
    rw [h]
    refine ⟨_, _, _, rfl, rfl, rfl, rfl, rfl, ?_, rfl⟩
    cases ho : ((sys.register
        (mkPid cls.className cls.classId cls.instanceCount)).2.output
          (startSignalFor
            (mkPid cls.className cls.classId cls.instanceCount))) with
    | ok v =>
      obtain ⟨b, s⟩ := v
      obtain ⟨hp, _⟩ := outputCore_preserves _ _ _ _ _ _ _ ho
      simp only [ho]
      rw [hp]
      exact register_mem sys _
    | error e =>
      simp only [ho]
      exact register_mem sys _

/-- C9 counterexample: with the singleton slot already filled, `create`
with an absent system argument returns the existing instance normally
instead of raising — refuting "raises a Validation error whenever the
system argument is absent". -/
theorem singleton_create_no_validation :
    SdlSingletonProcess.create clsWithInstance none =
      Except.ok (clsWithInstance, soloInst, none) ∧
    ∀ e, SdlSingletonProcess.create clsWithInstance none ≠
      Except.error e := by
  refine ⟨rfl, ?_⟩
  intro e h
  rw [show SdlSingletonProcess.create clsWithInstance none =
    Except.ok (clsWithInstance, soloInst, none) from rfl] at h
  exact Except.noConfusion h

/-- Witness for `singleton_create_spec`: a fresh class with no system
raises a validation error, and a filled slot returns the existing
instance unchanged. -/
theorem singleton_create_spec_witness :
    SdlSingletonProcess.create clsFresh none =
      Except.error (SdlError.validation "system") ∧
    SdlSingletonProcess.create clsWithInstance (some sysEmpty) =
      Except.ok (clsWithInstance, soloInst, some sysEmpty) :=
  ⟨(singleton_create_spec clsFresh sysEmpty).2.1 rfl,
   (singleton_create_spec clsWithInstance sysEmpty).1 soloInst rfl
     (some sysEmpty)⟩

theorem SdlTimer.cmp_eq_zero_iff (a b : SdlTimer) :
    a.cmp b = 0 ↔ a.typeId = b.typeId ∧ a.appcorr = b.appcorr := by
  unfold SdlTimer.cmp
  split_ifs with h1 h2 h3 h4 <;> constructor <;> intro h <;>
    first
      | (exfalso; revert h; norm_num; done)
      | (exfalso; omega)
      | omega

theorem SdlTimer.eqT_iff (a b : SdlTimer) :
    a.eqT b = true ↔ a.typeId = b.typeId ∧ a.appcorr = b.appcorr := by
  unfold SdlTimer.eqT
  rw [decide_eq_true_eq]
  exact SdlTimer.cmp_eq_zero_iff a b

theorem SdlTimer.eqT_refl (t : SdlTimer) : t.eqT t = true :=
  (SdlTimer.eqT_iff t t).mpr ⟨rfl, rfl⟩

theorem SdlTimer.eqT_congr {t1 t2 : SdlTimer} (h : t1.eqT t2 = true)
    (x : SdlTimer) : x.eqT t1 = x.eqT t2 := by
  obtain ⟨h1, h2⟩ := (SdlTimer.eqT_iff t1 t2).mp h
  rw [Bool.eq_iff_iff, SdlTimer.eqT_iff, SdlTimer.eqT_iff, h1, h2]

theorem countTimerEq_congr (ts : List SdlTimer) {t1 t2 : SdlTimer}
    (h : t1.eqT t2 = true) : countTimerEq ts t1 = countTimerEq ts t2 := by
  unfold countTimerEq
  congr 1
  apply List.filter_congr
  intro x _
  exact SdlTimer.eqT_congr h x

theorem countTimerEq_append (ts us : List SdlTimer) (t : SdlTimer) :
    countTimerEq (ts ++ us) t =
      countTimerEq ts t + countTimerEq us t := by
  unfold countTimerEq
  rw [List.filter_append, List.length_append]

theorem countTimerEq_pos_iff_any (ts : List SdlTimer) (t : SdlTimer) :
    (0 < countTimerEq ts t) ↔ ts.any (fun x => x.eqT t) = true := by
  induction ts with
  | nil => simp [countTimerEq]
  | cons x xs ih =>
    unfold countTimerEq at ih ⊢
    rw [List.filter_cons, List.any_cons]
    by_cases h : x.eqT t = true
    · simp [h]
    · rw [Bool.not_eq_true] at h
      simp only [h, Bool.false_eq_true, if_false, Bool.false_or]
      exact ih

theorem countTimerEq_removeFirst (ts : List SdlTimer) (t : SdlTimer) :
    countTimerEq (removeFirst SdlTimer.eqT ts t) t =
      countTimerEq ts t -
        (if ts.any (fun x => x.eqT t) = true then 1 else 0) := by
  induction ts with
  | nil => rfl
  | cons x xs ih =>
    unfold removeFirst
    rw [List.any_cons]
    by_cases h : x.eqT t = true
    · rw [if_pos h]
      unfold countTimerEq
      simp [List.filter_cons, h]
    · rw [if_neg h]
      rw [Bool.not_eq_true] at h
      unfold countTimerEq at ih ⊢
      simp only [List.filter_cons, h, Bool.false_eq_true, if_false,
        Bool.false_or]
      exact ih

theorem alookup_eq_none {α β : Type} [DecidableEq α] (m : List (α × β))
    (a : α) (h : a ∉ m.map Prod.fst) : alookup m a = none := by
  induction m with
  | nil => rfl
  | cons kv rest ih =>
    obtain ⟨k, v⟩ := kv
    simp only [List.map_cons, List.mem_cons] at h
    push_neg at h
    unfold alookup
    rw [if_neg (fun hc => h.1 hc.symm)]
    exact ih h.2

theorem alookup_setKey_self {α β : Type} [DecidableEq α]
    (m : List (α × β)) (a : α) (b : β) :
    alookup (setKey m a b) a = some b := by
  induction m with
  | nil => simp [setKey, alookup]
  | cons kv rest ih =>
    obtain ⟨k, v⟩ := kv
    unfold setKey
    by_cases h : k = a
    · rw [if_pos h]
      simp [alookup]
    · rw [if_neg h]
      unfold alookup
      rw [if_neg h]
      exact ih

theorem alookup_setKey_ne {α β : Type} [DecidableEq α]
    (m : List (α × β)) (a : α) (b : β) (p : α) (h : p ≠ a) :
    alookup (setKey m a b) p = alookup m p := by
  induction m with
  | nil =>
    simp only [setKey, alookup]
    rw [if_neg (fun hc => h hc.symm)]
  | cons kv rest ih =>
    obtain ⟨k, v⟩ := kv
    unfold setKey
    by_cases hk : k = a
    · rw [if_pos hk]
      unfold alookup
      rw [if_neg (fun hc => h hc.symm), if_neg
        (by rw [hk]; exact fun hc => h hc.symm)]
    · rw [if_neg hk]
      unfold alookup
      by_cases hkp : k = p
      · rw [if_pos hkp, if_pos hkp]
      · rw [if_neg hkp, if_neg hkp]
        exact ih

theorem alookup_eraseKey_ne {α β : Type} [DecidableEq α]
    (m : List (α × β)) (a p : α) (h : p ≠ a) :
    alookup (eraseKey m a) p = alookup m p := by
  induction m with
  | nil => rfl
  | cons kv rest ih =>
    obtain ⟨k, v⟩ := kv
    unfold eraseKey
    by_cases hk : k = a
    · rw [if_pos hk]
      have hcons : alookup ((k, v) :: rest) p = alookup rest p := by
        simp only [alookup]
        rw [if_neg (by rw [hk]; exact fun hc => h hc.symm)]
      rw [hcons]
    · rw [if_neg hk]
      unfold alookup
      by_cases hkp : k = p
      · rw [if_pos hkp, if_pos hkp]
      · rw [if_neg hkp, if_neg hkp]
        exact ih

theorem alookup_eraseKey_self {α β : Type} [DecidableEq α]
    (m : List (α × β)) (a : α) (hnd : (m.map Prod.fst).Nodup) :
    alookup (eraseKey m a) a = none := by
  induction m with
  | nil => rfl
  | cons kv rest ih =>
    obtain ⟨k, v⟩ := kv
    simp only [List.map_cons, List.nodup_cons] at hnd
    unfold eraseKey
    by_cases hk : k = a
    · rw [if_pos hk]
      exact alookup_eq_none rest a (hk ▸ hnd.1)
    · rw [if_neg hk]
      unfold alookup
      rw [if_neg hk]
      exact ih hnd.2

theorem eraseKey_sublist {α β : Type} [DecidableEq α]
    (m : List (α × β)) (a : α) : (eraseKey m a).Sublist m := by
  induction m with
  | nil => exact List.Sublist.refl []
  | cons kv rest ih =>
    unfold eraseKey
    by_cases hk : kv.1 = a
    · obtain ⟨k, v⟩ := kv
      rw [if_pos hk]
      exact List.sublist_cons_self (k, v) rest
    · obtain ⟨k, v⟩ := kv
      rw [if_neg hk]
      exact List.Sublist.cons₂ (k, v) ih

theorem eraseKey_keys_nodup {α β : Type} [DecidableEq α]
    (m : List (α × β)) (a : α) (hnd : (m.map Prod.fst).Nodup) :
    ((eraseKey m a).map Prod.fst).Nodup :=
  List.Nodup.sublist (List.Sublist.map Prod.fst (eraseKey_sublist m a)) hnd

theorem setKey_keys {α β : Type} [DecidableEq α]
    (m : List (α × β)) (a : α) (b : β) :
    (setKey m a b).map Prod.fst =
      if a ∈ m.map Prod.fst then m.map Prod.fst
      else m.map Prod.fst ++ [a] := by
  induction m with
  | nil => simp [setKey]
  | cons kv rest ih =>
    obtain ⟨k, v⟩ := kv
    unfold setKey
    by_cases hk : k = a
    · rw [if_pos hk]
      simp [hk]
    · rw [if_neg hk]
      simp only [List.map_cons, List.mem_cons]
      rw [ih]
      by_cases hm : a ∈ rest.map Prod.fst
      · rw [if_pos hm, if_pos (Or.inr hm)]
      · rw [if_neg hm, if_neg (by
          intro hc
          rcases hc with hc | hc
          · exact hk hc.symm
          · exact hm hc)]
        rfl

theorem setKey_keys_nodup {α β : Type} [DecidableEq α]
    (m : List (α × β)) (a : α) (b : β)
    (hnd : (m.map Prod.fst).Nodup) :
    ((setKey m a b).map Prod.fst).Nodup := by
  rw [setKey_keys]
  by_cases hm : a ∈ m.map Prod.fst
  · rw [if_pos hm]
    exact hnd
  · rw [if_neg hm]
    simp [List.nodup_append, hnd, hm]

theorem countTimerEq_applyStop (o : Option (List SdlTimer))
    (t : SdlTimer) :
    countTimerEq ((applyStop o t).getD []) t =
      countTimerEq (o.getD []) t -
        (if (o.getD []).any (fun x => x.eqT t) = true then 1 else 0) := by
  cases o with
  | none => rfl
  | some ts =>
    unfold applyStop
    dsimp only [Option.getD]
    by_cases hany : ts.any (fun x => x.eqT t) = true
    · rw [if_pos hany]
      have hrm := countTimerEq_removeFirst ts t
      rw [if_pos hany] at hrm
      by_cases hrest : removeFirst SdlTimer.eqT ts t = []
      · rw [if_pos hrest]
        rw [hrest] at hrm
        simpa [hany] using hrm
      · rw [if_neg hrest]
        simpa [hany] using hrm
    · rw [if_neg hany]
      simp [hany]

theorem stopTimer_lookup (sys : SdlSystem) (t : SdlTimer) (q : String)
    (hsrc : t.src = some q) (hq : q ≠ "")
    (hnd : (sys.timerMap.map Prod.fst).Nodup) :
    ((sys.stopTimer t).1 =
      ((alookup sys.timerMap q).getD []).any (fun x => x.eqT t)) ∧
    (∀ p, alookup (sys.stopTimer t).2.timerMap p =
      if p = q then applyStop (alookup sys.timerMap q) t
      else alookup sys.timerMap p) ∧
    (((sys.stopTimer t).2.timerMap.map Prod.fst).Nodup) ∧
    ((sys.stopTimer t).2.procMap = sys.procMap) ∧
    ((sys.stopTimer t).2.queue = sys.queue) ∧
    ((sys.stopTimer t).2.readyList = sys.readyList) := by
  unfold SdlSystem.stopTimer
  rw [hsrc]
  dsimp only
  rw [if_neg hq]
  cases hl : alookup sys.timerMap q with
  | none =>
    dsimp only
    refine ⟨rfl, ?_, hnd, rfl, rfl, rfl⟩
    intro p
    by_cases hp : p = q
    · rw [if_pos hp, hp, hl]
      rfl
    · rw [if_neg hp]
  | some ts =>
    dsimp only
    by_cases hany : ts.any (fun x => x.eqT t) = true
    · rw [if_pos hany]
      by_cases hrest : removeFirst SdlTimer.eqT ts t = []
      · rw [if_pos hrest]
        have h1 : (true : Bool) =
            ((some ts).getD []).any (fun x => x.eqT t) := by
          dsimp only [Option.getD]
          rw [hany]
        refine ⟨h1, ?_, eraseKey_keys_nodup _ _ hnd, rfl, rfl, rfl⟩
        intro p
        by_cases hp : p = q
        · rw [if_pos hp, hp]
          rw [alookup_eraseKey_self _ _ hnd]
          simp [applyStop, hany, hrest]
        · rw [if_neg hp]
          exact alookup_eraseKey_ne _ _ _ hp
      · rw [if_neg hrest]
        have h1 : (true : Bool) =
            ((some ts).getD []).any (fun x => x.eqT t) := by
          dsimp only [Option.getD]
          rw [hany]
        refine ⟨h1, ?_, setKey_keys_nodup _ _ _ hnd, rfl, rfl, rfl⟩
        intro p
        by_cases hp : p = q
        · rw [if_pos hp, hp]
          rw [alookup_setKey_self]
          simp [applyStop, hany, hrest]
        · rw [if_neg hp]
          exact alookup_setKey_ne _ _ _ _ hp
    · rw [if_neg hany]
      have h1 : (false : Bool) =
          ((some ts).getD []).any (fun x => x.eqT t) := by
        dsimp only [Option.getD]
        rw [Bool.not_eq_true] at hany
        rw [hany]
      refine ⟨h1, ?_, hnd, rfl, rfl, rfl⟩
      intro p
      by_cases hp : p = q
      · rw [if_pos hp, hp, hl]
        simp [applyStop, hany]
      · rw [if_neg hp]

theorem startTimer_spec (sys : SdlSystem) (t : SdlTimer) (q : String)
    (hsrc : t.src = some q) (hq : q ≠ "")
    (hnd : (sys.timerMap.map Prod.fst).Nodup) :
    ∃ sys1, sys.startTimer t = Except.ok sys1 ∧
      ((sys1.timerMap.map Prod.fst).Nodup) ∧
      (alookup sys1.timerMap q =
        some (((applyStop (alookup sys.timerMap q) t).getD []) ++ [t])) ∧
      (∀ p, p ≠ q → alookup sys1.timerMap p = alookup sys.timerMap p) ∧
      (countTimerEq ((alookup sys1.timerMap q).getD []) t =
        countTimerEq ((alookup sys.timerMap q).getD []) t -
          (if ((alookup sys.timerMap q).getD []).any
              (fun x => x.eqT t) = true then 1 else 0) + 1) := by
  obtain ⟨hret, hlkp, hnd1, _, _, _⟩ := stopTimer_lookup sys t q hsrc hq hnd
  unfold SdlSystem.startTimer
  rw [hsrc]
  dsimp only
  rw [if_neg hq]
  have hstop : alookup (sys.stopTimer t).2.timerMap q =
      applyStop (alookup sys.timerMap q) t := by
    rw [hlkp q, if_pos rfl]
  refine ⟨_, rfl, setKey_keys_nodup _ _ _ hnd1, ?_, ?_, ?_⟩
  · rw [alookup_setKey_self, hstop]
  · intro p hp
    rw [alookup_setKey_ne _ _ _ _ hp, hlkp p, if_neg hp]
  · have hone : countTimerEq [t] t = 1 := by
      simp [countTimerEq, SdlTimer.eqT_refl]
    rw [alookup_setKey_self, hstop, Option.getD_some, countTimerEq_append,
      hone, countTimerEq_applyStop]

/-- C5: starting two timers equal by `(typeId, correlator)` for the same
owner leaves exactly one matching entry in that owner's list;
`stopTimer` returns true exactly when a removal occurred, removes only
the first equal timer (the match count drops by exactly one), and
deletes the owner's registry entry entirely once its list becomes empty
(the `applyStop` characterisation of the registry entry). -/
theorem timer_start_stop_dedup (sys : SdlSystem) (t1 t2 : SdlTimer)
    (q : String)
    (hsrc1 : t1.src = some q) (hsrc2 : t2.src = some q) (hq : q ≠ "")
    (heq : t1.eqT t2 = true)
    (hnd : (sys.timerMap.map Prod.fst).Nodup)
    (hcount : countTimerEq ((alookup sys.timerMap q).getD []) t1 ≤ 1) :
    (∃ sys1 sys2, sys.startTimer t1 = Except.ok sys1 ∧
      sys1.startTimer t2 = Except.ok sys2 ∧
      countTimerEq ((alookup sys2.timerMap q).getD []) t2 = 1) ∧
    ((sys.stopTimer t1).1 =
      ((alookup sys.timerMap q).getD []).any (fun x => x.eqT t1)) ∧
    (∀ p, alookup (sys.stopTimer t1).2.timerMap p =
      if p = q then applyStop (alookup sys.timerMap q) t1
      else alookup sys.timerMap p) ∧
    ((sys.stopTimer t1).1 = true →
      countTimerEq
          ((alookup (sys.stopTimer t1).2.timerMap q).getD []) t1 =
        countTimerEq ((alookup sys.timerMap q).getD []) t1 - 1) := by
  obtain ⟨hret, hlkp, hnd0, _, _, _⟩ :=
    stopTimer_lookup sys t1 q hsrc1 hq hnd
  refine ⟨?_, hret, hlkp, ?_⟩
  · obtain ⟨sys1, hok1, hnd1, hq1, hne1, hcnt1⟩ :=
      startTimer_spec sys t1 q hsrc1 hq hnd
    obtain ⟨sys2, hok2, hnd2, hq2, hne2, hcnt2⟩ :=
      startTimer_spec sys1 t2 q hsrc2 hq hnd1
    refine ⟨sys1, sys2, hok1, hok2, ?_⟩
    have hone : countTimerEq ((alookup sys1.timerMap q).getD []) t1 = 1 := by
      rw [hcnt1]
      by_cases hany : ((alookup sys.timerMap q).getD []).any
          (fun x => x.eqT t1) = true
      · have hpos : 0 < countTimerEq ((alookup sys.timerMap q).getD []) t1 :=
          (countTimerEq_pos_iff_any _ _).mpr hany
        rw [if_pos hany]
        omega
      · have hzero : countTimerEq ((alookup sys.timerMap q).getD [])
            t1 = 0 := by
          by_contra hnz
          exact hany ((countTimerEq_pos_iff_any _ _).mp
            (Nat.pos_of_ne_zero hnz))
        rw [if_neg hany]
        omega
    have hone2 : countTimerEq ((alookup sys1.timerMap q).getD [])
        t2 = 1 := by
      rw [← countTimerEq_congr _ heq]
      exact hone
    have hany2 : ((alookup sys1.timerMap q).getD []).any
        (fun x => x.eqT t2) = true := by
      apply (countTimerEq_pos_iff_any _ _).mp
      omega
    rw [hcnt2, if_pos hany2, hone2]
  · intro htrue
    have hq1 : alookup (sys.stopTimer t1).2.timerMap q =
        applyStop (alookup sys.timerMap q) t1 := by
      rw [hlkp q, if_pos rfl]
    rw [hq1, countTimerEq_applyStop]
    rw [hret] at htrue
    rw [if_pos htrue]

/-- Witness for `timer_start_stop_dedup`: starting `timerOwnedA2`
(equal by key to the already scheduled `timerOwnedA`) twice on
`sysTimers` leaves exactly one matching entry for owner `A(1.0)`. -/
theorem timer_start_stop_dedup_witness :
    ∃ sys1 sys2, sysTimers.startTimer timerOwnedA2 = Except.ok sys1 ∧
      sys1.startTimer timerOwnedA2 = Except.ok sys2 ∧
      countTimerEq ((alookup sys2.timerMap "A(1.0)").getD [])
        timerOwnedA2 = 1 :=
  (timer_start_stop_dedup sysTimers timerOwnedA2 timerOwnedA2 "A(1.0)"
    rfl rfl (by decide) (by decide) (by decide) (by decide)).1

theorem outputTimer_preserves (sys : SdlSystem) (t : SdlTimer)
    (b : Bool) (sys2 : SdlSystem)
    (h : sys.outputTimer t = Except.ok (b, sys2)) :
    sys2.procMap = sys.procMap ∧ sys2.timerMap = sys.timerMap :=
  outputCore_preserves _ _ _ _ _ _ _ h

theorem expireStep_timerMap (msec : Int) (acc : SdlSystem × List SdlTimer)
    (t : SdlTimer) :
    (expireStep msec acc t).1.timerMap = acc.1.timerMap := by
  unfold expireStep
  by_cases h : (t.expire msec).expired = true
  · rw [if_pos h]
    cases ho : acc.1.outputTimer (t.expire msec) with
    | ok v =>
      obtain ⟨b, s⟩ := v
      simp only [ho]
      exact (outputTimer_preserves _ _ _ _ ho).2
    | error e => simp only [ho]
  · rw [if_neg h]

theorem expireStep_trace (msec : Int) (acc : SdlSystem × List SdlTimer)
    (t : SdlTimer) :
    (expireStep msec acc t).2 =
      acc.2 ++ (if (t.expire msec).expired = true
                then [t.expire msec] else []) := by
  unfold expireStep
  by_cases h : (t.expire msec).expired = true
  · rw [if_pos h, if_pos h]
    cases ho : acc.1.outputTimer (t.expire msec) with
    | ok v =>
      obtain ⟨b, s⟩ := v
      simp only [ho]
    | error e => simp only [ho]
  · rw [if_neg h, if_neg h]
    rw [List.append_nil]

theorem foldl_expireStep (msec : Int) (ts : List SdlTimer) :
    ∀ acc : SdlSystem × List SdlTimer,
      ((ts.foldl (expireStep msec) acc).2 =
        acc.2 ++ (ts.map (fun t => t.expire msec)).filter
          (fun t => t.expired)) ∧
      ((ts.foldl (expireStep msec) acc).1.timerMap = acc.1.timerMap) := by
  induction ts with
  | nil => intro acc; exact ⟨(List.append_nil acc.2).symm, rfl⟩
  | cons x xs ih =>
    intro acc
    obtain ⟨iht, ihm⟩ := ih (expireStep msec acc x)
    constructor
    · rw [List.foldl_cons, iht, expireStep_trace, List.map_cons,
        List.filter_cons]
      by_cases h : (x.expire msec).expired = true <;> simp [h]
    · rw [List.foldl_cons, ihm, expireStep_timerMap]

theorem foldl_entries (msec : Int)
    (entries : List (String × List SdlTimer)) :
    ∀ acc : SdlSystem × List SdlTimer,
      ((entries.foldl
          (fun acc e => e.2.foldl (expireStep msec) acc) acc).2 =
        acc.2 ++ (entries.map
          (fun e => (e.2.map (fun t => t.expire msec)).filter
            (fun t => t.expired))).flatten) ∧
      ((entries.foldl
          (fun acc e => e.2.foldl (expireStep msec) acc) acc).1.timerMap =
        acc.1.timerMap) := by
  induction entries with
  | nil => intro acc; exact ⟨(List.append_nil acc.2).symm, rfl⟩
  | cons e rest ih =>
    intro acc
    obtain ⟨iht, ihm⟩ := ih (e.2.foldl (expireStep msec) acc)
    obtain ⟨ht0, hm0⟩ := foldl_expireStep msec e.2 acc
    constructor
    · rw [List.foldl_cons, iht, ht0, List.map_cons, List.flatten_cons,
        List.append_assoc]
    · rw [List.foldl_cons, ihm, hm0]

theorem expirePhase1_spec (sys : SdlSystem) (msec : Int) :
    ((sys.expirePhase1 msec).2 =
      (sys.timerMap.map
        (fun e => (e.2.map (fun t => t.expire msec)).filter
          (fun t => t.expired))).flatten) ∧
    ((sys.expirePhase1 msec).1.timerMap =
      sys.timerMap.map
        (fun e => (e.1, e.2.map (fun t => t.expire msec)))) := by
  obtain ⟨ht, hm⟩ := foldl_entries msec sys.timerMap (sys, [])
  unfold SdlSystem.expirePhase1
  constructor
  · dsimp only
    rw [ht, List.nil_append]
  · dsimp only
    rw [hm]

theorem alookup_mapVal {α β γ : Type} [DecidableEq α] (f : β → γ)
    (m : List (α × β)) (p : α) :
    alookup (m.map (fun e => (e.1, f e.2))) p = (alookup m p).map f := by
  induction m with
  | nil => rfl
  | cons kv rest ih =>
    obtain ⟨k, v⟩ := kv
    simp only [List.map_cons]
    unfold alookup
    by_cases hk : k = p
    · rw [if_pos hk, if_pos hk]
      rfl
    · rw [if_neg hk, if_neg hk]
      exact ih

theorem mapVal_keys {α β γ : Type} (f : β → γ) (m : List (α × β)) :
    (m.map (fun e => (e.1, f e.2))).map Prod.fst = m.map Prod.fst := by
  induction m with
  | nil => rfl
  | cons kv rest ih =>
    simp only [List.map_cons, ih]

theorem foldl_applyStop_none (L : List SdlTimer) :
    List.foldl applyStop none L = none := by
  induction L with
  | nil => rfl
  | cons x xs ih =>
    rw [List.foldl_cons]
    exact ih

theorem foldl_applyStop_nil (L : List SdlTimer) :
    List.foldl applyStop (some []) L = some [] := by
  induction L with
  | nil => rfl
  | cons x xs ih =>
    rw [List.foldl_cons]
    exact ih

theorem applyStop_cons (x y : SdlTimer) (ts : List SdlTimer)
    (h : x.eqT y = false) :
    applyStop (some (x :: ts)) y = consOpt x (applyStop (some ts) y) := by
  have hrm : removeFirst SdlTimer.eqT (x :: ts) y =
      x :: removeFirst SdlTimer.eqT ts y := by
    simp [removeFirst, h]
  simp only [applyStop, consOpt, List.any_cons, h, Bool.false_or, hrm]
  by_cases hany : (ts.any fun z => z.eqT y) = true
  · by_cases hrf : removeFirst SdlTimer.eqT ts y = []
    · simp [hany, hrf]
    · simp [hany, hrf]
  · simp [hany]

theorem foldl_applyStop_consOpt (x : SdlTimer) (ys : List SdlTimer) :
    (∀ y ∈ ys, x.eqT y = false) →
    ∀ o : Option (List SdlTimer),
      List.foldl applyStop (consOpt x o) ys =
        consOpt x (List.foldl applyStop o ys) := by
  induction ys with
  | nil =>
    intro _ o
    rfl
  | cons y ys ih =>
    intro h o
    have hxy : x.eqT y = false := h y (List.mem_cons_self y ys)
    rw [List.foldl_cons, List.foldl_cons]
    have h1 : applyStop (consOpt x o) y =
        consOpt x (applyStop (some (o.getD [])) y) := by
      unfold consOpt
      exact applyStop_cons x y (o.getD []) hxy
    rw [h1, ih (fun z hz => h z (List.mem_cons_of_mem _ hz))
      (applyStop (some (o.getD [])) y)]
    cases o with
    | some l => rfl
    | none =>
      rw [show applyStop (some ((none : Option (List SdlTimer)).getD []))
          y = some [] from rfl]
      rw [show applyStop (none : Option (List SdlTimer)) y = none
        from rfl]
      rw [foldl_applyStop_nil, foldl_applyStop_none]
      rfl

theorem filter_not_eq_self {α : Type} (P : α → Bool) (xs : List α)
    (h : xs.filter P = []) : xs.filter (fun t => ! P t) = xs := by
  rw [List.filter_eq_self]
  intro a ha
  have hnp := List.filter_eq_nil_iff.mp h a ha
  simp only [Bool.not_eq_true] at hnp
  simp [hnp]

theorem foldl_applyStop_filter (P : SdlTimer → Bool) (ts : List SdlTimer) :
    ts.Pairwise (fun a b => a.eqT b = false) →
    List.foldl applyStop (some ts) (ts.filter P) =
      (if ts.filter P = [] then some ts
       else if ts.filter (fun t => ! P t) = [] then none
       else some (ts.filter (fun t => ! P t))) := by
  induction ts with
  | nil =>
    intro _
    rfl
  | cons x xs ih =>
    intro hpw
    rw [List.pairwise_cons] at hpw
    obtain ⟨hx, hpw2⟩ := hpw
    by_cases hP : P x = true
    · have e1 : (x :: xs).filter P = x :: xs.filter P := by
        simp [List.filter_cons, hP]
      have hnP : (! P x) = false := by
        rw [hP]
        rfl
      have e2 : (x :: xs).filter (fun t => ! P t) =
          xs.filter (fun t => ! P t) := by
        simp [List.filter_cons, hnP]
      rw [e1, e2, List.foldl_cons]
      have hstep : applyStop (some (x :: xs)) x =
          if xs = [] then none else some xs := by
        have hany : ((x :: xs).any fun z => z.eqT x) = true := by
          simp [List.any_cons, SdlTimer.eqT_refl]
        have hrm : removeFirst SdlTimer.eqT (x :: xs) x = xs := by
          simp [removeFirst, SdlTimer.eqT_refl]
        simp [applyStop, hany, hrm]
      rw [hstep, if_neg (List.cons_ne_nil _ _)]
      by_cases hxs : xs = []
      · subst hxs
        simp
      · rw [if_neg hxs, ih hpw2]
        by_cases hA : xs.filter P = []
        · rw [if_pos hA, filter_not_eq_self P xs hA, if_neg hxs]
        · rw [if_neg hA]
    · rw [Bool.not_eq_true] at hP
      have e1 : (x :: xs).filter P = xs.filter P := by
        simp [List.filter_cons, hP]
      have hnP : (! P x) = true := by
        rw [hP]
        rfl
      have e2 : (x :: xs).filter (fun t => ! P t) =
          x :: xs.filter (fun t => ! P t) := by
        simp [List.filter_cons, hnP]
      rw [e1, e2]
      have hcons : (some (x :: xs) : Option (List SdlTimer)) =
          consOpt x (some xs) := rfl
      rw [hcons, foldl_applyStop_consOpt x (xs.filter P)
        (fun y hy => hx y (List.mem_of_mem_filter hy)) (some xs),
        ih hpw2]
      by_cases hA : xs.filter P = []
      · rw [if_pos hA, if_pos hA]
      · rw [if_neg hA, if_neg hA, if_neg (List.cons_ne_nil _ _)]
        by_cases hB : xs.filter (fun t => ! P t) = []
        · rw [if_pos hB, hB]
          rfl
        · rw [if_neg hB]
          rfl

theorem foldl_stopTimer_lookup (L : List SdlTimer) :
    ∀ sys : SdlSystem, (sys.timerMap.map Prod.fst).Nodup →
      (∀ t ∈ L, ∃ q, t.src = some q ∧ q ≠ "") →
      ∀ p, alookup
          ((L.foldl (fun s t => (s.stopTimer t).2) sys).timerMap) p =
        List.foldl applyStop (alookup sys.timerMap p)
          (L.filter (fun t => decide (t.src = some p))) := by
  induction L with
  | nil =>
    intro sys _ _ p
    rfl
  | cons x xs ih =>
    intro sys hnd hsrc p
    obtain ⟨q, hxq, hqne⟩ := hsrc x (List.mem_cons_self x xs)
    obtain ⟨_, hlkp, hnd1, _, _, _⟩ := stopTimer_lookup sys x q hxq hqne hnd
    rw [List.foldl_cons, List.filter_cons,
      ih (sys.stopTimer x).2 hnd1
        (fun t ht => hsrc t (List.mem_cons_of_mem _ ht)) p]
    by_cases hp : x.src = some p
    · have hqp : q = p := by
        rw [hxq] at hp
        exact Option.some.inj hp
      rw [if_pos (by simp [hp]), List.foldl_cons]
      congr 1
      rw [hlkp p, if_pos hqp.symm, hqp]
    · rw [if_neg (by simp [hp])]
      congr 1
      rw [hlkp p, if_neg (fun hc => hp (by rw [hxq, hc]))]

theorem alookup_mem {α β : Type} [DecidableEq α] (m : List (α × β))
    (p : α) (b : β) (h : alookup m p = some b) : (p, b) ∈ m := by
  induction m with
  | nil => cases h
  | cons kv rest ih =>
    obtain ⟨k, v⟩ := kv
    simp only [alookup] at h
    by_cases hk : k = p
    · rw [if_pos hk] at h
      subst hk
      injection h with hv
      subst hv
      exact List.mem_cons_self _ _
    · rw [if_neg hk] at h
      exact List.mem_cons_of_mem _ (ih h)

theorem SdlTimer.eqT_expire (a b : SdlTimer) (m1 m2 : Int) :
    (a.expire m1).eqT (b.expire m2) = a.eqT b := rfl

theorem SdlTimer.expire_src (a : SdlTimer) (m : Int) :
    (a.expire m).src = a.src := rfl

theorem flatten_filter_src (msec : Int)
    (m : List (String × List SdlTimer)) :
    (m.map Prod.fst).Nodup →
    (∀ e ∈ m, ∀ t ∈ e.2, t.src = some e.1) →
    ∀ p, ((m.map (fun e => (e.2.map (fun t => t.expire msec)).filter
        (fun t => t.expired))).flatten).filter
        (fun t => decide (t.src = some p)) =
      (match alookup m p with
       | none => []
       | some ts => (ts.map (fun t => t.expire msec)).filter
           (fun t => t.expired)) := by
  induction m with
  | nil =>
    intro _ _ p
    rfl
  | cons e rest ih =>
    intro hnd hsrc p
    obtain ⟨q, ts⟩ := e
    have hEq : ∀ t' ∈ (ts.map (fun t => t.expire msec)).filter
        (fun t => t.expired), t'.src = some q := by
      intro t' ht'
      have hmem := List.mem_of_mem_filter ht'
      obtain ⟨t0, ht0, rfl⟩ := List.mem_map.mp hmem
      rw [SdlTimer.expire_src]
      exact hsrc (q, ts) (List.mem_cons_self _ _) t0 ht0
    have hnd2 : (rest.map Prod.fst).Nodup := by
      simp only [List.map_cons, List.nodup_cons] at hnd
      exact hnd.2
    have hsrc2 : ∀ e ∈ rest, ∀ t ∈ e.2, t.src = some e.1 :=
      fun e he t ht => hsrc e (List.mem_cons_of_mem _ he) t ht
    simp only [List.map_cons, List.flatten_cons, List.filter_append]
    rw [ih hnd2 hsrc2 p]
    by_cases hqp : q = p
    · subst hqp
      have hq1 : q ∉ rest.map Prod.fst := by
        simp only [List.map_cons, List.nodup_cons] at hnd
        exact hnd.1
      rw [alookup_eq_none rest q hq1]
      have h1 : ((ts.map (fun t => t.expire msec)).filter
          (fun t => t.expired)).filter
            (fun t => decide (t.src = some q)) =
          (ts.map (fun t => t.expire msec)).filter
            (fun t => t.expired) := by
        rw [List.filter_eq_self]
        intro a ha
        simp [hEq a ha]
      have hlk : alookup ((q, ts) :: rest) q = some ts := by
        simp [alookup]
      rw [h1, hlk]
      simp
    · have h0 : ((ts.map (fun t => t.expire msec)).filter
          (fun t => t.expired)).filter
            (fun t => decide (t.src = some p)) = [] := by
        rw [List.filter_eq_nil_iff]
        intro a ha
        simp [hEq a ha, hqp]
      have hlk : alookup ((q, ts) :: rest) p = alookup rest p := by
        simp only [alookup]
        rw [if_neg hqp]
      rw [h0, hlk]
      simp

/-- C4: `expire(t)` stamps the observed time on every live timer,
attempts delivery for every timer with deadline at or before `t` across
every owner (the returned trace, in registry order), and removes each
such expired timer from the registry regardless of delivery outcome —
deleting an owner's entry when all its timers expired — while every
timer with a later deadline remains scheduled in its owner's list, with
only its observed time updated. -/
theorem expire_spec (sys : SdlSystem) (msec : Int)
    (hkeys : (sys.timerMap.map Prod.fst).Nodup)
    (hsrc : ∀ e ∈ sys.timerMap, ∀ t ∈ e.2, t.src = some e.1)
    (hne : ∀ e ∈ sys.timerMap, e.1 ≠ "")
    (hpair : ∀ e ∈ sys.timerMap,
      e.2.Pairwise (fun a b => a.eqT b = false)) :
    ((sys.expire msec).2 =
      (sys.timerMap.map (fun e => (e.2.map (fun t => t.expire msec)).filter
        (fun t => t.expired))).flatten) ∧
    (∀ p ts, alookup sys.timerMap p = some ts →
      alookup (sys.expire msec).1.timerMap p =
        (if (ts.map (fun t => t.expire msec)).filter
            (fun t => t.expired) = [] then
          some (ts.map (fun t => t.expire msec))
         else if (ts.map (fun t => t.expire msec)).filter
            (fun t => ! t.expired) = [] then none
         else some ((ts.map (fun t => t.expire msec)).filter
            (fun t => ! t.expired)))) ∧
    (∀ p, alookup sys.timerMap p = none →
      alookup (sys.expire msec).1.timerMap p = none) := by
  obtain ⟨htr, hmapP1⟩ := expirePhase1_spec sys msec
  have hexp2 : (sys.expire msec).2 = (sys.expirePhase1 msec).2 := rfl
  have hexp1 : (sys.expire msec).1 =
      ((sys.expirePhase1 msec).2).foldl
        (fun s t => (s.stopTimer t).2) (sys.expirePhase1 msec).1 := rfl
  have hnd1 : ((sys.expirePhase1 msec).1.timerMap.map Prod.fst).Nodup := by
    rw [hmapP1, mapVal_keys]
    exact hkeys
  have hsrcE : ∀ t ∈ (sys.expirePhase1 msec).2,
      ∃ q, t.src = some q ∧ q ≠ "" := by
    intro t ht
    rw [htr] at ht
    obtain ⟨l, hl, htl⟩ := List.mem_flatten.mp ht
    obtain ⟨e, he, rfl⟩ := List.mem_map.mp hl
    have hmem := List.mem_of_mem_filter htl
    obtain ⟨t0, ht0, rfl⟩ := List.mem_map.mp hmem
    refine ⟨e.1, ?_, hne e he⟩
    rw [SdlTimer.expire_src]
    exact hsrc e he t0 ht0
  have hfold := foldl_stopTimer_lookup (sys.expirePhase1 msec).2
    (sys.expirePhase1 msec).1 hnd1 hsrcE
  have hfilt : ∀ p, ((sys.expirePhase1 msec).2).filter
      (fun t => decide (t.src = some p)) =
      (match alookup sys.timerMap p with
       | none => []
       | some ts => (ts.map (fun t => t.expire msec)).filter
           (fun t => t.expired)) := by
    intro p
    rw [htr]
    exact flatten_filter_src msec sys.timerMap hkeys hsrc p
  refine ⟨hexp2.trans htr, ?_, ?_⟩
  · intro p ts hts
    have hpw : (ts.map (fun t => t.expire msec)).Pairwise
        (fun a b => a.eqT b = false) := by
      rw [List.pairwise_map]
      apply List.Pairwise.imp ?_ (hpair (p, ts) (alookup_mem _ _ _ hts))
      intro a b hab
      rw [SdlTimer.eqT_expire]
      exact hab
    rw [hexp1, hfold p, hfilt p, hts]
    have hstart : alookup (sys.expirePhase1 msec).1.timerMap p =
        some (ts.map (fun t => t.expire msec)) := by
      rw [hmapP1, alookup_mapVal, hts]
      rfl
    rw [hstart]
    exact foldl_applyStop_filter (fun t => t.expired)
      (ts.map (fun t => t.expire msec)) hpw
  · intro p hnone
    rw [hexp1, hfold p, hfilt p, hnone]
    have hstart : alookup (sys.expirePhase1 msec).1.timerMap p = none := by
      rw [hmapP1, alookup_mapVal, hnone]
      rfl
    rw [hstart]
    rfl

/-- Witness for `expire_spec` on `sysTimers` at time 500: the timer with
deadline 100 is delivered and removed, the timer with deadline 900
remains scheduled with observed time 500. -/
theorem expire_spec_witness :
    (sysTimers.expire 500).2 = [timerOwnedA.expire 500] ∧
    alookup (sysTimers.expire 500).1.timerMap "A(1.0)" =
      some [timerLate.expire 500] := by
  obtain ⟨h1, h2, h3⟩ := expire_spec sysTimers 500 (by decide)
    (by decide) (by decide) (by decide)
  constructor
  · rw [h1]
    rfl
  · rw [h2 "A(1.0)" [timerOwnedA, timerLate] rfl]
    rfl
